import Mathlib

/-!
Verification of `utils/security_config.py` (path safety validator).

The module holds two constant sets, `DANGEROUS_PATHS` and `EXCLUDED_DIRS`,
and one decision function `is_dangerous_path`.  The Python function:

```
def is_dangerous_path(path: Path) -> bool:
    try:
        resolved = path.resolve()
        resolved_str = str(resolved)
        if resolved.parent == resolved:
            return True
        for dangerous in DANGEROUS_PATHS:
            if dangerous == "/":
                continue
            if resolved_str == dangerous:
                return True
            if resolved_str.startswith(dangerous + "/") or resolved_str.startswith(dangerous + "\\"):
                return True
        return False
    except Exception:
        return True
```

Embedding choices: `path.resolve()` is the only fallible, platform-dependent
operation, so the embedded function takes the outcome of resolution as input:
`none` models a resolution failure (the `except` branch), and
`some ⟨resolved_str, parentEqSelf⟩` models a successful resolution, carrying
the string form of the resolved path and the boolean outcome of the
`resolved.parent == resolved` root test.  Python's `str.startswith` is exact
list-prefix testing on the characters, modelled by `py_startswith`.  The
Python `set` has no specified iteration order; the denylist is embedded as a
list in source order and order-independence is proved separately.
-/

namespace SecurityConfig

/-- The `DANGEROUS_PATHS` constant, in the order written in the source. -/
def DANGEROUS_PATHS : List String :=
  ["/", "/etc", "/usr", "/bin", "/var", "/root", "/home",
   "C:\\", "C:\\Windows", "C:\\Program Files", "C:\\Users"]

/-- The `EXCLUDED_DIRS` constant (data only; consumed by the external walker,
not by `is_dangerous_path`). -/
def EXCLUDED_DIRS : List String :=
  ["__pycache__", ".venv", "venv", "env", ".env", "*.egg-info", ".eggs",
   "wheels", ".Python", ".mypy_cache", ".pytest_cache", ".tox", "htmlcov",
   ".coverage", "coverage", "node_modules", ".next", ".nuxt",
   "bower_components", ".sass-cache", ".git", ".svn", ".hg", "build",
   "dist", "target", "out", ".idea", ".vscode", ".sublime", ".atom",
   ".brackets", ".cache", ".temp", ".tmp", "*.swp", "*.swo", "*~",
   ".DS_Store", "Thumbs.db", ".gradle", ".m2", "_build", "site", ".expo",
   ".flutter", "vendor"]

/-- Python `s.startswith(pre)`: exact prefix test on the characters. -/
def py_startswith (s pre : String) : Bool :=
  pre.data.isPrefixOf s.data

/-- The test applied to one denylist entry inside the loop body (exact match,
or prefix with `"/"` separator, or prefix with `"\\"` separator). -/
def entry_match (dangerous resolved_str : String) : Bool :=
  (resolved_str == dangerous)
    || py_startswith resolved_str (dangerous ++ "/")
    || py_startswith resolved_str (dangerous ++ "\\")

/-- The `for dangerous in DANGEROUS_PATHS:` loop of `is_dangerous_path`,
with its `continue` for the `"/"` entry and its early `return True`s. -/
def dangerous_loop (resolved_str : String) : List String → Bool
  | [] => false
  | dangerous :: rest =>
    if dangerous == "/" then dangerous_loop resolved_str rest
    else if resolved_str == dangerous then true
    else if py_startswith resolved_str (dangerous ++ "/")
         || py_startswith resolved_str (dangerous ++ "\\") then true
    else dangerous_loop resolved_str rest

/-- Outcome of a successful `path.resolve()`: the resolved path as a string,
and whether `resolved.parent == resolved` (the platform's root test). -/
structure ResolvedPath where
  str : String
  parentEqSelf : Bool
  deriving DecidableEq, Repr

/-- `is_dangerous_path`, parameterised by the denylist it iterates over
(the source reads the module-level constant `DANGEROUS_PATHS`).
`none` is a failed `path.resolve()`, absorbed by the `except` branch. -/
def is_dangerous_core (entries : List String) : Option ResolvedPath → Bool
  | none => true
  | some resolved =>
    if resolved.parentEqSelf then true
    else dangerous_loop resolved.str entries

/-- `is_dangerous_path` as in the source: the core check run against the
module constant `DANGEROUS_PATHS`. -/
def is_dangerous_path : Option ResolvedPath → Bool :=
  is_dangerous_core DANGEROUS_PATHS

/-! ### Spec-side notion: path components

The spec defines containment over path components ("split into components,
compare sequences").  On a POSIX platform components are the maximal
slash-free nonempty pieces of the path string. -/

/-- Split a character list at every `'/'` (the pieces keep no separator;
empty pieces are produced around consecutive or terminal separators). -/
def splitSlash : List Char → List (List Char)
  | [] => [[]]
  | c :: cs =>
    if c = '/' then [] :: splitSlash cs
    else
      match splitSlash cs with
      | [] => [[c]]
      | g :: gs => (c :: g) :: gs

/-- POSIX path components of a character list: the nonempty pieces between
`'/'` separators. -/
def componentsL (l : List Char) : List (List Char) :=
  (splitSlash l).filter (fun c => !c.isEmpty)

/-- POSIX path components of a path string. -/
def components (s : String) : List (List Char) :=
  componentsL s.data

/-- Spec-side containment: the components of `d`, in order, are a prefix of
the components of `r` (exact component match included). -/
def component_containment (d r : String) : Bool :=
  (components d).isPrefixOf (components r)

/-- Spec-side strict containment: the components of `d` are a strict prefix
of the components of `r`, followed by at least one more component. -/
def strict_component_containment (d r : String) : Bool :=
  (components d).isPrefixOf (components r) && (components d != components r)

/-- Canonical absolute path built from a component list:
`canonicalAbs [c₁, …, cₙ] = "/c₁/…/cₙ"` (as characters). -/
def canonicalAbs (cs : List (List Char)) : List Char :=
  cs.foldr (fun c acc => '/' :: (c ++ acc)) []

/-- A well-formed POSIX path component: nonempty and slash-free. -/
abbrev goodComp (c : List Char) : Prop := c ≠ [] ∧ '/' ∉ c

/-! ### Basic lemmas about the loop and the string primitives -/

theorem py_startswith_iff (s pre : String) :
    py_startswith s pre = true ↔ ∃ t, s.data = pre.data ++ t := by
  unfold py_startswith
  rw [List.isPrefixOf_iff_prefix]
  constructor
  · rintro ⟨t, h⟩
    exact ⟨t, h.symm⟩
  · rintro ⟨t, h⟩
    exact ⟨t, h.symm⟩

theorem py_startswith_append (pre t : String) :
    py_startswith (pre ++ t) pre = true := by
  rw [py_startswith_iff]
  exact ⟨t.data, String.data_append pre t⟩

/-- The loop is the disjunction, over the entries, of the per-entry test,
skipping the `"/"` entry. -/
theorem dangerous_loop_eq_any (r : String) (entries : List String) :
    dangerous_loop r entries
      = entries.any (fun d => (d != "/") && entry_match d r) := by
  induction entries with
  | nil => rfl
  | cons d rest ih =>
    unfold dangerous_loop
    rw [List.any_cons]
    cases hd : (d == "/") with
    | true => simp [hd, ih, bne]
    | false =>
      cases hr : (r == d) <;>
        cases h2 : py_startswith r (d ++ "/") <;>
          cases h3 : py_startswith r (d ++ "\\") <;>
            simp [entry_match, hd, hr, h2, h3, ih, bne]

/-- If some entry other than `"/"` passes the per-entry test, the loop
returns `true`. -/
theorem dangerous_loop_of_mem {d : String} {entries : List String}
    (hmem : d ∈ entries) (hroot : d ≠ "/") (hmatch : entry_match d r = true) :
    dangerous_loop r entries = true := by
  rw [dangerous_loop_eq_any]
  refine List.any_eq_true.mpr ⟨d, hmem, ?_⟩
  simp [hroot, hmatch]

/-! ### Lemmas about `splitSlash` and components -/

theorem splitSlash_ne_nil (l : List Char) : splitSlash l ≠ [] := by
  cases l with
  | nil => simp [splitSlash]
  | cons c cs =>
    unfold splitSlash
    by_cases hc : c = '/'
    · simp [hc]
    · simp only [hc, if_false]
      cases splitSlash cs <;> simp

/-- Splitting distributes over a `'/'` in the middle. -/
theorem splitSlash_append_slash (xs ys : List Char) :
    splitSlash (xs ++ '/' :: ys) = splitSlash xs ++ splitSlash ys := by
  induction xs with
  | nil => simp [splitSlash]
  | cons c cs ih =>
    by_cases hc : c = '/'
    · simp [splitSlash, hc, ih]
    · have h := splitSlash_ne_nil cs
      cases hcs : splitSlash cs with
      | nil => exact absurd hcs h
      | cons g gs =>
        show splitSlash (c :: (cs ++ '/' :: ys)) = _
        rw [splitSlash]
        simp only [hc, if_false, ih, hcs, List.cons_append]
        conv_rhs => rw [splitSlash]
        simp only [hc, if_false, hcs, List.cons_append]

theorem componentsL_append_slash (xs ys : List Char) :
    componentsL (xs ++ '/' :: ys) = componentsL xs ++ componentsL ys := by
  unfold componentsL
  rw [splitSlash_append_slash, List.filter_append]

/-- A block of slash-free characters merges into the first piece. -/
theorem splitSlash_append_noslash {c : List Char} (hc : '/' ∉ c)
    {ys : List Char} {g : List Char} {gs : List (List Char)}
    (h : splitSlash ys = g :: gs) :
    splitSlash (c ++ ys) = (c ++ g) :: gs := by
  induction c with
  | nil => simpa using h
  | cons a as ih =>
    have ha : a ≠ '/' := by
      intro hEq
      exact hc (hEq ▸ List.mem_cons_self a as)
    have has : '/' ∉ as := fun hm => hc (List.mem_cons_of_mem a hm)
    have hrec : splitSlash (as ++ ys) = (as ++ g) :: gs := ih has
    show splitSlash (a :: (as ++ ys)) = _
    rw [splitSlash]
    simp only [ha, if_false, hrec, List.cons_append]

/-- `splitSlash` of a nonempty canonical absolute path starts with an empty
piece (the path starts with `'/'`). -/
theorem splitSlash_canonicalAbs (cs : List (List Char)) :
    ∃ gs, splitSlash (canonicalAbs cs) = [] :: gs := by
  cases cs with
  | nil => exact ⟨[], rfl⟩
  | cons c₂ cs₂ =>
    show ∃ gs, splitSlash ('/' :: (c₂ ++ canonicalAbs cs₂)) = [] :: gs
    exact ⟨splitSlash (c₂ ++ canonicalAbs cs₂), by simp [splitSlash]⟩

/-- Splitting a canonical absolute path recovers its components. -/
theorem componentsL_canonicalAbs {cs : List (List Char)}
    (h : ∀ c ∈ cs, goodComp c) :
    componentsL (canonicalAbs cs) = cs := by
  induction cs with
  | nil => rfl
  | cons c cs' ih =>
    have hc : goodComp c := h c (List.mem_cons_self c cs')
    have hrec : componentsL (canonicalAbs cs') = cs' :=
      ih (fun x hx => h x (List.mem_cons_of_mem c hx))
    obtain ⟨gs, hsplit⟩ := splitSlash_canonicalAbs cs'
    have hbody : splitSlash (c ++ canonicalAbs cs') = (c ++ []) :: gs :=
      splitSlash_append_noslash hc.2 hsplit
    have hgs : gs.filter (fun x => !x.isEmpty) = cs' := by
      unfold componentsL at hrec
      rw [hsplit] at hrec
      simpa using hrec
    show componentsL ('/' :: (c ++ canonicalAbs cs')) = c :: cs'
    have hss : splitSlash ('/' :: (c ++ canonicalAbs cs'))
        = [] :: (c ++ []) :: gs := by
      simp [splitSlash, hbody]
    unfold componentsL
    rw [hss]
    simp [hc.1, hgs]

/-! ### Further support lemmas -/

/-- `List.any` is permutation-invariant (no order dependence, the Boolean
core of claim C8). -/
theorem any_perm {l₁ l₂ : List String} (p : String → Bool) (h : l₁.Perm l₂) :
    l₁.any p = l₂.any p := by
  cases hx : l₂.any p with
  | false =>
    rw [List.any_eq_false] at hx ⊢
    intro x hm
    exact hx x (h.mem_iff.mp hm)
  | true =>
    obtain ⟨x, hm, hp⟩ := List.any_eq_true.mp hx
    exact List.any_eq_true.mpr ⟨x, h.mem_iff.mpr hm, hp⟩

theorem canonicalAbs_append (xs ys : List (List Char)) :
    canonicalAbs (xs ++ ys) = canonicalAbs xs ++ canonicalAbs ys := by
  unfold canonicalAbs
  rw [List.foldr_append]
  induction xs with
  | nil => rfl
  | cons c xs' ih => simp [List.foldr_cons, ih]

/-- Every character of a canonical absolute path is a separator or a
character of one of its components. -/
theorem mem_canonicalAbs {a : Char} {cs : List (List Char)}
    (h : a ∈ canonicalAbs cs) : a = '/' ∨ ∃ c ∈ cs, a ∈ c := by
  induction cs with
  | nil => simp [canonicalAbs] at h
  | cons c cs' ih =>
    have h' : a ∈ '/' :: (c ++ canonicalAbs cs') := h
    rcases List.mem_cons.mp h' with h0 | h1
    · exact Or.inl h0
    · rcases List.mem_append.mp h1 with h2 | h3
      · exact Or.inr ⟨c, List.mem_cons_self c cs', h2⟩
      · rcases ih h3 with h4 | ⟨c', hc', ha'⟩
        · exact Or.inl h4
        · exact Or.inr ⟨c', List.mem_cons_of_mem c hc', ha'⟩

theorem data_append_slash (d : String) :
    (d ++ "/").data = d.data ++ ['/'] := by
  rw [String.data_append]

theorem data_append_backslash (d : String) :
    (d ++ "\\").data = d.data ++ ['\\'] := by
  rw [String.data_append]

/-- A successful `startswith(d + "/")` forces component containment. -/
theorem component_containment_of_startswith {d r : String}
    (h : py_startswith r (d ++ "/") = true) :
    component_containment d r = true := by
  obtain ⟨t, ht⟩ := (py_startswith_iff r (d ++ "/")).mp h
  rw [data_append_slash] at ht
  have ht' : r.data = d.data ++ '/' :: t := by
    rw [ht, List.append_assoc]
    rfl
  unfold component_containment components
  rw [List.isPrefixOf_iff_prefix, ht', componentsL_append_slash]
  exact List.prefix_append _ _

/-- A successful `startswith(d + "\\")` forces a backslash character in the
resolved string. -/
theorem backslash_mem_of_startswith {d r : String}
    (h : py_startswith r (d ++ "\\") = true) : '\\' ∈ r.data := by
  obtain ⟨t, ht⟩ := (py_startswith_iff r (d ++ "\\")).mp h
  rw [data_append_backslash] at ht
  rw [ht]
  exact List.mem_append.mpr (Or.inl (List.mem_append.mpr (Or.inr (by simp))))

/-- Exact string match forces component containment. -/
theorem component_containment_of_eq {d r : String} (h : r = d) :
    component_containment d r = true := by
  subst h
  unfold component_containment
  exact List.isPrefixOf_iff_prefix.mpr List.prefix_rfl

/-- If no entry of the list passes the per-entry test (other than `"/"`),
the loop returns `false`. -/
theorem dangerous_loop_eq_false {r : String} {entries : List String}
    (h : ∀ d ∈ entries, d ≠ "/" → entry_match d r = false) :
    dangerous_loop r entries = false := by
  rw [dangerous_loop_eq_any]
  rw [List.any_eq_false]
  intro d hmem
  by_cases hd : d = "/"
  · simp [hd]
  · simp [hd, h d hmem hd]

/-! ### Claim theorems -/

/-- C1: for every denylist entry `d` other than `"/"` and every non-empty
relative suffix `s`, `is_dangerous_path` applied to a path resolving to
`d ++ separator ++ s` (separator `"/"` or `"\\"`) returns `True`, including
multi-level nesting (`s` may itself contain separators). -/
theorem c1_subpaths_dangerous :
    ∀ d ∈ DANGEROUS_PATHS, d ≠ "/" →
      ∀ sep ∈ (["/", "\\"] : List String), ∀ s : String, s ≠ "" →
        ∀ b : Bool, is_dangerous_path (some ⟨d ++ sep ++ s, b⟩) = true := by
  intro d hd hroot sep hsep s _ b
  cases b with
  | true => rfl
  | false =>
    show dangerous_loop (d ++ sep ++ s) DANGEROUS_PATHS = true
    refine dangerous_loop_of_mem hd hroot ?_
    rcases List.mem_cons.mp hsep with h | h
    · subst h
      simp [entry_match, py_startswith_append (d ++ "/") s]
    · have h' : sep = "\\" := by simpa using h
      subst h'
      simp [entry_match, py_startswith_append (d ++ "\\") s]

/-- C1 witness: `/etc` + `/` + `ssh/sshd_config` is dangerous. -/
theorem c1_subpaths_dangerous_witness :
    ("/etc" ∈ DANGEROUS_PATHS ∧ "/etc" ≠ "/"
        ∧ "/" ∈ (["/", "\\"] : List String) ∧ "ssh/sshd_config" ≠ "")
      ∧ is_dangerous_path (some ⟨"/etc" ++ "/" ++ "ssh/sshd_config", false⟩)
          = true :=
  ⟨⟨by decide, by decide, by decide, by decide⟩,
    c1_subpaths_dangerous "/etc" (by decide) (by decide) "/" (by decide)
      "ssh/sshd_config" (by decide) false⟩

/-- C4: `is_dangerous_path` is total and fail-closed — a failed resolution
(the `except` branch) yields `True` immediately, and every input yields a
Boolean verdict, never a propagated error (the embedding returns `Bool`, no
error value exists). -/
theorem c4_fail_closed_total :
    is_dangerous_path none = true
      ∧ ∀ inp : Option ResolvedPath,
          is_dangerous_path inp = true ∨ is_dangerous_path inp = false := by
  refine ⟨rfl, ?_⟩
  intro inp
  cases h : is_dangerous_path inp with
  | false => exact Or.inr rfl
  | true => exact Or.inl rfl

/-- C5: every denylist entry except `"/"`, fed back as its own resolved
string, is classified dangerous (whatever the outcome of the platform root
test on it). -/
theorem c5_entries_dangerous :
    ∀ d ∈ DANGEROUS_PATHS, d ≠ "/" →
      ∀ b : Bool, is_dangerous_path (some ⟨d, b⟩) = true := by decide

/-- C5 witness: the entry `/etc` itself is dangerous. -/
theorem c5_entries_dangerous_witness :
    ("/etc" ∈ DANGEROUS_PATHS ∧ "/etc" ≠ "/")
      ∧ is_dangerous_path (some ⟨"/etc", false⟩) = true :=
  ⟨⟨by decide, by decide⟩,
    c5_entries_dangerous "/etc" (by decide) (by decide) false⟩

/-- C6: a resolved path that is its own parent (the filesystem root) is
dangerous, by the dedicated root check, for any denylist whatsoever —
including the empty one, so the verdict is independent of the containment
loop. -/
theorem c6_root_dangerous (s : String) (entries : List String) :
    is_dangerous_core entries (some ⟨s, true⟩) = true := rfl

/-- C7: the six concrete scenarios on a POSIX platform where the given
paths resolve to themselves (`/` is the only one that is its own parent). -/
theorem c7_concrete_scenarios :
    is_dangerous_path (some ⟨"/etc", false⟩) = true
      ∧ is_dangerous_path (some ⟨"/etc/passwd", false⟩) = true
      ∧ is_dangerous_path (some ⟨"/etc/ssh/sshd_config", false⟩) = true
      ∧ is_dangerous_path (some ⟨"/", true⟩) = true
      ∧ is_dangerous_path (some ⟨"/tmp/project/src", false⟩) = false
      ∧ is_dangerous_path (some ⟨"/tmp/etcbackup", false⟩) = false := by
  decide

/-- C9: the subdirectory check tests the `"\\"` separator unconditionally,
so any resolved string consisting of a denylist entry followed by a
backslash is dangerous; in particular the POSIX path `/etc\config` (one
root-level component containing a literal backslash) is classified
dangerous although it is not a hierarchical component-wise descendant of
`/etc`. -/
theorem c9_backslash_separator :
    (∀ d ∈ DANGEROUS_PATHS, d ≠ "/" →
        ∀ (s : String) (b : Bool),
          is_dangerous_path (some ⟨d ++ "\\" ++ s, b⟩) = true)
      ∧ is_dangerous_path (some ⟨"/etc\\config", false⟩) = true
      ∧ strict_component_containment "/etc" "/etc\\config" = false
      ∧ component_containment "/etc" "/etc\\config" = false := by
  refine ⟨?_, by decide, by decide, by decide⟩
  intro d hd hroot s b
  cases b with
  | true => rfl
  | false =>
    show dangerous_loop (d ++ "\\" ++ s) DANGEROUS_PATHS = true
    exact dangerous_loop_of_mem hd hroot
      (by simp [entry_match, py_startswith_append (d ++ "\\") s])

/-- C9 witness: the universal part applied at entry `/etc`, suffix
`config`. -/
theorem c9_backslash_separator_witness :
    ("/etc" ∈ DANGEROUS_PATHS ∧ "/etc" ≠ "/")
      ∧ is_dangerous_path (some ⟨"/etc" ++ "\\" ++ "config", false⟩) = true :=
  ⟨⟨by decide, by decide⟩,
    c9_backslash_separator.1 "/etc" (by decide) (by decide) "config" false⟩

/-- C8: on any successfully resolved non-root input the verdict equals the
existential condition "some entry other than `/` exactly matches or is a
prefix-plus-separator of the resolved string", so it is invariant under any
permutation of the entry list (the embedding is a pure function, so the
check mutates nothing by construction). -/
theorem c8_order_independent (r : String) (l₁ l₂ : List String)
    (hperm : l₁.Perm l₂) :
    (is_dangerous_core l₁ (some ⟨r, false⟩)
        = decide (∃ d ∈ l₁, d ≠ "/" ∧ entry_match d r = true))
      ∧ is_dangerous_core l₁ (some ⟨r, false⟩)
          = is_dangerous_core l₂ (some ⟨r, false⟩) := by
  constructor
  · show dangerous_loop r l₁ = _
    rw [dangerous_loop_eq_any]
    by_cases h : ∃ d ∈ l₁, d ≠ "/" ∧ entry_match d r = true
    · rw [decide_eq_true h]
      obtain ⟨d, hmem, hne, hm⟩ := h
      exact List.any_eq_true.mpr ⟨d, hmem, by simp [hne, hm]⟩
    · rw [decide_eq_false h]
      rw [List.any_eq_false]
      intro d hmem hcontra
      have hc : d ≠ "/" ∧ entry_match d r = true := by
        simpa using hcontra
      exact h ⟨d, hmem, hc⟩
  · show dangerous_loop r l₁ = dangerous_loop r l₂
    rw [dangerous_loop_eq_any, dangerous_loop_eq_any]
    exact any_perm _ hperm

/-- C8 witness: a transposed two-entry denylist yields the same verdict on
`/etc/passwd`. -/
theorem c8_order_independent_witness :
    (["/etc", "/usr"] : List String).Perm ["/usr", "/etc"]
      ∧ is_dangerous_core ["/etc", "/usr"] (some ⟨"/etc/passwd", false⟩)
          = is_dangerous_core ["/usr", "/etc"] (some ⟨"/etc/passwd", false⟩) :=
  ⟨by decide,
    (c8_order_independent "/etc/passwd" ["/etc", "/usr"] ["/usr", "/etc"]
      (by decide)).2⟩

/-- C10: the `"/"` entry of `DANGEROUS_PATHS` is semantically redundant —
on every input the verdict with the full denylist equals the verdict with
the denylist minus `"/"`, because the root check runs first and the loop
skips the `"/"` entry. -/
theorem c10_root_entry_redundant (inp : Option ResolvedPath) :
    is_dangerous_path inp
      = is_dangerous_core (DANGEROUS_PATHS.erase "/") inp := by
  cases inp with
  | none => rfl
  | some resolved =>
    obtain ⟨s, b⟩ := resolved
    cases b with
    | true => rfl
    | false =>
      show dangerous_loop s DANGEROUS_PATHS
          = dangerous_loop s (DANGEROUS_PATHS.erase "/")
      have herase : DANGEROUS_PATHS.erase "/"
          = ["/etc", "/usr", "/bin", "/var", "/root", "/home",
             "C:\\", "C:\\Windows", "C:\\Program Files", "C:\\Users"] := by
        decide
      have hfull : DANGEROUS_PATHS
          = "/" :: ["/etc", "/usr", "/bin", "/var", "/root", "/home",
             "C:\\", "C:\\Windows", "C:\\Program Files", "C:\\Users"] := by
        decide
      rw [herase, hfull, dangerous_loop_eq_any, dangerous_loop_eq_any,
        List.any_cons]
      simp

/-- C2 counterexample: the resolved string `/etc\config` is not the root,
is distinct from every denylist entry, and is not a strict component-wise
descendant of any entry, yet `is_dangerous_path` returns `True` (the
unconditional `"\\"` separator branch fires), refuting the claim as
stated. -/
theorem c2_counterexample :
    (DANGEROUS_PATHS.all fun d =>
        (d == "/")
          || (("/etc\\config" != d)
              && !(strict_component_containment d "/etc\\config"))) = true
      ∧ is_dangerous_path (some ⟨"/etc\\config", false⟩) = true := by decide

/-- C2 (amended): for every resolved non-root path whose string contains no
backslash character and whose components do not extend the components of
any denylist entry other than `"/"` (in particular it equals no entry and
is nested under none), `is_dangerous_path` returns `False`; textual
near-misses such as `/tmp/etcbackup` are Safe. -/
theorem c2_amended_safe (r : String)
    (hnb : '\\' ∉ r.data)
    (hsafe : ∀ d ∈ DANGEROUS_PATHS, d ≠ "/" →
        component_containment d r = false) :
    is_dangerous_path (some ⟨r, false⟩) = false := by
  show dangerous_loop r DANGEROUS_PATHS = false
  refine dangerous_loop_eq_false ?_
  intro d hmem hd
  have hcc := hsafe d hmem hd
  have h1 : (r == d) = false := by
    cases h : (r == d) with
    | false => rfl
    | true =>
      have heq : r = d := by simpa using h
      rw [component_containment_of_eq heq] at hcc
      simp at hcc
  have h2 : py_startswith r (d ++ "/") = false := by
    cases h : py_startswith r (d ++ "/") with
    | false => rfl
    | true =>
      rw [component_containment_of_startswith h] at hcc
      simp at hcc
  have h3 : py_startswith r (d ++ "\\") = false := by
    cases h : py_startswith r (d ++ "\\") with
    | false => rfl
    | true => exact absurd (backslash_mem_of_startswith h) hnb
  simp [entry_match, h1, h2, h3]

/-- C2 witness: `/tmp/etcbackup` (shares the substring `etc` with the entry
`/etc` but is no component-wise descendant) is Safe. -/
theorem c2_amended_safe_witness :
    ('\\' ∉ "/tmp/etcbackup".data)
      ∧ is_dangerous_path (some ⟨"/tmp/etcbackup", false⟩) = false :=
  ⟨by decide, c2_amended_safe "/tmp/etcbackup" (by decide) (by decide)⟩

/-- C3 counterexample: at entry `/etc` and resolved string `/etc\config`
the string test fires (via its unconditional `"\\"` branch) while
component-wise containment — strict or not — does not hold, so the two
containment tests are not equivalent for every resolved path and entry. -/
theorem c3_counterexample :
    ("/etc" ∈ DANGEROUS_PATHS)
      ∧ entry_match "/etc" "/etc\\config" = true
      ∧ strict_component_containment "/etc" "/etc\\config" = false
      ∧ component_containment "/etc" "/etc\\config" = false := by decide

/-- C3 (amended): restricted to canonical absolute POSIX paths whose
components are nonempty, slash-free and backslash-free, the string test of
the source (exact match, or prefix plus separator) is equivalent to
component-wise containment: the entry's components are a prefix of the
path's components (equality, i.e. exact match, included). -/
theorem c3_amended_equiv (ds cs : List (List Char))
    (hds : ∀ c ∈ ds, goodComp c ∧ '\\' ∉ c)
    (hcs : ∀ c ∈ cs, goodComp c ∧ '\\' ∉ c)
    (_hdsne : ds ≠ []) (_hcsne : cs ≠ []) :
    entry_match (String.mk (canonicalAbs ds)) (String.mk (canonicalAbs cs))
      = ds.isPrefixOf cs := by
  have hdsg : ∀ c ∈ ds, goodComp c := fun c h => (hds c h).1
  have hcsg : ∀ c ∈ cs, goodComp c := fun c h => (hcs c h).1
  cases hpre : List.isPrefixOf ds cs with
  | true =>
    obtain ⟨t, hts⟩ : ds <+: cs := List.isPrefixOf_iff_prefix.mp hpre
    cases t with
    | nil =>
      have : ds = cs := by simpa using hts
      subst this
      simp [entry_match]
    | cons c₀ t' =>
      have hr : (String.mk (canonicalAbs cs)).data
          = (String.mk (canonicalAbs ds) ++ "/").data
              ++ (c₀ ++ canonicalAbs t') := by
        rw [data_append_slash]
        show canonicalAbs cs = (canonicalAbs ds ++ ['/']) ++ (c₀ ++ canonicalAbs t')
        rw [← hts, canonicalAbs_append]
        show canonicalAbs ds ++ '/' :: (c₀ ++ canonicalAbs t') = _
        rw [List.append_assoc]
        rfl
      have hsw : py_startswith (String.mk (canonicalAbs cs))
          (String.mk (canonicalAbs ds) ++ "/") = true := by
        unfold py_startswith
        rw [List.isPrefixOf_iff_prefix, hr]
        exact List.prefix_append _ _
      simp [entry_match, hsw]
  | false =>
    have hnpre : ¬ (ds <+: cs) := by
      rw [← List.isPrefixOf_iff_prefix, hpre]
      simp
    have h1 : (String.mk (canonicalAbs cs) == String.mk (canonicalAbs ds))
        = false := by
      cases h : (String.mk (canonicalAbs cs) == String.mk (canonicalAbs ds)) with
      | false => rfl
      | true =>
        have heq : String.mk (canonicalAbs cs) = String.mk (canonicalAbs ds) := by
          simpa using h
        have hdata : canonicalAbs cs = canonicalAbs ds := congrArg String.data heq
        have : cs = ds := by
          rw [← componentsL_canonicalAbs hcsg, ← componentsL_canonicalAbs hdsg,
            hdata]
        exact absurd (this ▸ List.prefix_rfl) hnpre
    have h2 : py_startswith (String.mk (canonicalAbs cs))
        (String.mk (canonicalAbs ds) ++ "/") = false := by
      cases h : py_startswith (String.mk (canonicalAbs cs))
          (String.mk (canonicalAbs ds) ++ "/") with
      | false => rfl
      | true =>
        obtain ⟨t, ht⟩ := (py_startswith_iff _ _).mp h
        rw [data_append_slash] at ht
        have ht' : canonicalAbs cs = canonicalAbs ds ++ '/' :: t := by
          have : (String.mk (canonicalAbs cs)).data
              = (canonicalAbs ds ++ ['/']) ++ t := ht
          rw [List.append_assoc] at this
          exact this
        have hcomp : cs = ds ++ componentsL t := by
          rw [← componentsL_canonicalAbs hcsg, ht', componentsL_append_slash,
            componentsL_canonicalAbs hdsg]
        exact absurd (hcomp ▸ List.prefix_append ds (componentsL t)) hnpre
    have h3 : py_startswith (String.mk (canonicalAbs cs))
        (String.mk (canonicalAbs ds) ++ "\\") = false := by
      cases h : py_startswith (String.mk (canonicalAbs cs))
          (String.mk (canonicalAbs ds) ++ "\\") with
      | false => rfl
      | true =>
        have hmem : '\\' ∈ (String.mk (canonicalAbs cs)).data :=
          backslash_mem_of_startswith h
        rcases mem_canonicalAbs hmem with hsl | ⟨c, hc, ha⟩
        · exact absurd hsl (by decide)
        · exact absurd ha (hcs c hc).2
    simp [entry_match, h1, h2, h3]

/-- C3 witness: the amended equivalence evaluated at entry `/etc` and path
`/etc/ssh` (components `[etc]` and `[etc, ssh]`). -/
theorem c3_amended_equiv_witness :
    ((∀ c ∈ [['e','t','c']], goodComp c ∧ '\\' ∉ c)
        ∧ (∀ c ∈ [['e','t','c'], ['s','s','h']], goodComp c ∧ '\\' ∉ c)
        ∧ ([['e','t','c']] : List (List Char)) ≠ []
        ∧ ([['e','t','c'], ['s','s','h']] : List (List Char)) ≠ [])
      ∧ entry_match (String.mk (canonicalAbs [['e','t','c']]))
          (String.mk (canonicalAbs [['e','t','c'], ['s','s','h']]))
        = List.isPrefixOf [['e','t','c']] [['e','t','c'], ['s','s','h']] :=
  ⟨⟨by decide, by decide, by decide, by decide⟩,
    c3_amended_equiv [['e','t','c']] [['e','t','c'], ['s','s','h']]
      (by decide) (by decide) (by decide) (by decide)⟩

end SecurityConfig
